import Mathlib

/-!
Verification of the suspend-orchestration programs of the cryptsetup
Debian packaging: `debian/scripts/suspend/cryptsetup-suspend.c` (modelled
by `run_cs`) and `debian/cryptroot-suspend/cryptroot-suspend.c` (modelled
by `run_cr`).  Both programs are straight-line C `main` functions; we
embed them as pure functions from an environment of I/O oracles (`Env`)
and the argument vector to a run result (`RunResult`) that records the
emitted event trace, the exit status, the cause of termination, the final
content of the sync-on-suspend knob file and the `sync_on_suspend_reset`
flag.  `err`/`errx` calls terminate the process immediately with
`EXIT_FAILURE`; they are modelled by the `died` result.
-/

namespace CryptSuspend

/-- Observable operations performed by the programs, in order. -/
inductive Event where
  | detect
  | warnOldKernel
  | disable
  | setPriority
  | warnPriority
  | reserve (size : Int)
  | sync
  | suspend (name : String) (ok : Bool)
  | powerWrite
  | restore
  deriving DecidableEq, Repr

/-- How a run terminated: `completed` is the final `return rv`; every other
constructor is one of the `err`/`errx`/`usage` exits of the C code. -/
inductive ExitCause where
  | usage
  | knobOpen
  | knobRead
  | knobWrite
  | unexpectedKnobValue
  | pbkdfParams
  | alloc
  | mlockFail
  | powerOpen
  | powerFail
  | restoreOpen
  | restoreWrite
  | completed
  deriving DecidableEq, Repr

/-- Result of `access("/sys/power/sync_on_suspend", W_OK)`: success, failure
with `errno == ENOENT`, or failure with any other errno. -/
inductive AccessRes where
  | ok
  | enoent
  | eother
  deriving DecidableEq, Repr

/-- Environment of I/O oracles: outcomes of every system and library call
the programs perform. -/
structure Env where
  access : AccessRes
  knobContent : List Char
  knobOpenOk : Bool
  knobWriteOk : Bool
  prioOk : Bool
  pbkdf : Option Nat
  mallocOk : Bool
  mlockOk : Bool
  suspendOk : String → Bool
  powerOpenOk : Bool
  powerWriteOk : Bool
  restoreOpenOk : Bool
  restoreWriteOk : Bool

/-- Mutable state of a run: trace so far, current knob-file content
(`none` = file absent), the `sync_on_suspend_reset` flag, and `rv`. -/
structure St where
  trace : List Event
  knob : Option (List Char)
  wasReset : Bool
  status : Nat

/-- Final result of a run. -/
structure RunResult where
  trace : List Event
  status : Nat
  cause : ExitCause
  knob : Option (List Char)
  wasReset : Bool

/-- The knob-file content before the run starts. -/
def initKnob (env : Env) : Option (List Char) :=
  if env.access = AccessRes.enoent then none else some env.knobContent

/-- Initial run state. -/
def initSt (env : Env) : St := ⟨[], initKnob env, false, 0⟩

/-- Effect of `err(EXIT_FAILURE, ...)` / `errx(EXIT_FAILURE, ...)`: the
process exits immediately with status 1. -/
def died (s : St) (c : ExitCause) : RunResult := ⟨s.trace, 1, c, s.knob, s.wasReset⟩

/-- Conversion of a mathematical product into a C 32-bit `int`
(`int argon2i_mem_size = pbkdf->max_memory_kb * 1024`). -/
def toInt32 (n : Nat) : Int :=
  if n % 2 ^ 32 < 2 ^ 31 then ((n % 2 ^ 32 : Nat) : Int)
  else ((n % 2 ^ 32 : Nat) : Int) - 2 ^ 32

/-- Conversion of the `int` to the `size_t` argument of `malloc`/`mlock`
on an LP64 platform. -/
def toSizeT (i : Int) : Nat := (i % (2 ^ 64 : Int)).toNat

/-- The computed reservation size `pbkdf->max_memory_kb * 1024` as the
stored 32-bit `int`. -/
def argon2iMemSize (kb : Nat) : Int := toInt32 (kb * 1024)

/-- The byte count actually requested from `malloc` and covered by `mlock`
and the page-touching loop. -/
def mallocRequest (kb : Nat) : Nat := toSizeT (argon2iMemSize kb)

/-- Argument processing (cryptsetup-suspend.c lines 36-47): `none` is the
`usage()` exit, otherwise the `reverse` flag and `d_size`. -/
def parseArgs (argv : List String) : Option (Bool × Nat) :=
  if argv.length < 2 then none
  else if argv.getD 1 "" = "-r" ∨ argv.getD 1 "" = "--reverse" then
    if argv.length < 3 then none else some (true, argv.length - 2)
  else some (false, argv.length - 1)

/-- The `devices` array (cryptsetup-suspend.c lines 49-59), with the exact
index arithmetic of the C code. -/
def devicesOf (argv : List String) (reverse : Bool) (d_size : Nat) : List String :=
  if reverse = false then (List.range d_size).map (fun i => argv.getD (i + 1) "")
  else (List.range d_size).map (fun i => argv.getD (argv.length - i - 1) "")

/-- The sync-on-suspend knob section (lines 61-87 of cryptsetup-suspend.c,
lines 25-49 of cryptroot-suspend.c; the two are identical). -/
def knobSection (env : Env) (s0 : St) : Except RunResult St :=
  let s := { s0 with trace := s0.trace ++ [Event.detect] }
  match env.access with
  | AccessRes.enoent => Except.ok { s with trace := s.trace ++ [Event.warnOldKernel] }
  | AccessRes.eother => Except.ok s
  | AccessRes.ok =>
    if env.knobOpenOk = false then Except.error (died s ExitCause.knobOpen)
    else if (env.knobContent[1]?).isNone then Except.error (died s ExitCause.knobRead)
    else
      match env.knobContent[0]? with
      | some c =>
        if c = '0' then Except.ok s
        else if c = '1' then
          let s1 := { s with wasReset := true }
          if env.knobWriteOk = false then Except.error (died s1 ExitCause.knobWrite)
          else Except.ok { s1 with trace := s1.trace ++ [Event.disable], knob := some ['0', '\n'] }
        else Except.error (died s ExitCause.unexpectedKnobValue)
      | none => Except.error (died s ExitCause.knobRead)

/-- `setpriority(PRIO_PROCESS, 0, -20)`: a failure only warns. -/
def prioSection (env : Env) (s : St) : St :=
  if env.prioOk then { s with trace := s.trace ++ [Event.setPriority] }
  else { s with trace := s.trace ++ [Event.setPriority, Event.warnPriority] }

/-- PBKDF query, `malloc`, `mlock` and the page-touching loop
(cryptsetup-suspend.c lines 94-117). -/
def reserveSection (env : Env) (s : St) : Except RunResult St :=
  match env.pbkdf with
  | none => Except.error (died s ExitCause.pbkdfParams)
  | some kb =>
    if env.mallocOk = false then Except.error (died s ExitCause.alloc)
    else if env.mlockOk = false then Except.error (died s ExitCause.mlockFail)
    else Except.ok { s with trace := s.trace ++ [Event.reserve (argon2iMemSize kb)] }

/-- The unconditional `sync()` call. -/
def syncSection (s : St) : St := { s with trace := s.trace ++ [Event.sync] }

/-- The device loop of cryptsetup-suspend.c (lines 127-134): a failed
`crypt_init_by_name`/`crypt_suspend` warns and sets `rv = EXIT_FAILURE`. -/
def suspendSection (env : Env) (devices : List String) (s : St) : St :=
  devices.foldl
    (fun s name =>
      if env.suspendOk name then { s with trace := s.trace ++ [Event.suspend name true] }
      else { s with trace := s.trace ++ [Event.suspend name false], status := 1 })
    s

/-- The device loop of cryptroot-suspend.c (lines 61-69): the branches are
inverted, `rv = EXIT_FAILURE` is executed in the `else` (success) branch. -/
def suspendSectionCr (env : Env) (devices : List String) (s : St) : St :=
  devices.foldl
    (fun s name =>
      if env.suspendOk name then
        { s with trace := s.trace ++ [Event.suspend name true], status := 1 }
      else { s with trace := s.trace ++ [Event.suspend name false] })
    s

/-- Writing `"mem"` to `/sys/power/state`; failure of the open or the write
is a fatal `err` exit. -/
def powerSection (env : Env) (s : St) : Except RunResult St :=
  if env.powerOpenOk = false then Except.error (died s ExitCause.powerOpen)
  else if env.powerWriteOk = false then Except.error (died s ExitCause.powerFail)
  else Except.ok { s with trace := s.trace ++ [Event.powerWrite] }

/-- Restore of the original knob value (lines 142-149) and the final
`return rv`.  Both restore failures are fatal `err` exits. -/
def restoreFinal (env : Env) (s : St) : RunResult :=
  if s.wasReset then
    if env.restoreOpenOk = false then died s ExitCause.restoreOpen
    else if env.restoreWriteOk = false then died s ExitCause.restoreWrite
    else ⟨s.trace ++ [Event.restore], s.status, ExitCause.completed, some ['1', '\n'], s.wasReset⟩
  else ⟨s.trace, s.status, ExitCause.completed, s.knob, s.wasReset⟩

/-- Everything after the knob section of cryptsetup-suspend.c. -/
def afterKnob (env : Env) (devices : List String) (s : St) : RunResult :=
  let s2 := prioSection env s
  match reserveSection env s2 with
  | Except.error r => r
  | Except.ok s3 =>
    let s4 := syncSection s3
    let s5 := suspendSection env devices s4
    match powerSection env s5 with
    | Except.error r => r
    | Except.ok s6 => restoreFinal env s6

/-- The whole `main` of cryptsetup-suspend.c. -/
def run_cs (env : Env) (argv : List String) : RunResult :=
  match parseArgs argv with
  | none => ⟨[], 1, ExitCause.usage, initKnob env, false⟩
  | some (rev, dsz) =>
    match knobSection env (initSt env) with
    | Except.error r => r
    | Except.ok s1 => afterKnob env (devicesOf argv rev dsz) s1

/-- Everything after the knob section of cryptroot-suspend.c: no memory
reservation, and the inverted device loop. -/
def afterKnobCr (env : Env) (devices : List String) (s : St) : RunResult :=
  let s2 := prioSection env s
  let s4 := syncSection s2
  let s5 := suspendSectionCr env devices s4
  match powerSection env s5 with
  | Except.error r => r
  | Except.ok s6 => restoreFinal env s6

/-- The whole `main` of cryptroot-suspend.c: no usage check, devices are
`argv[1..]` in the given order. -/
def run_cr (env : Env) (argv : List String) : RunResult :=
  match knobSection env (initSt env) with
  | Except.error r => r
  | Except.ok s1 => afterKnobCr env (argv.drop 1) s1

/-- Number of actual writes to the knob file in a trace (the disable write
plus the restore write). -/
def knobWrites (t : List Event) : Nat :=
  t.count Event.disable + t.count Event.restore

/-- The operations named by the end-to-end scenario of the spec. -/
def claimEvent : Event → Bool
  | Event.detect => true
  | Event.disable => true
  | Event.sync => true
  | Event.suspend _ _ => true
  | Event.powerWrite => true
  | Event.restore => true
  | _ => false

/-- Recognizer for device-suspend events. -/
def isSuspendEv : Event → Bool
  | Event.suspend _ _ => true
  | _ => false

/-- An environment in which every system call succeeds, the knob is
enabled (content `"1\n"`), and device suspends succeed according to `f`. -/
def okEnv (f : String → Bool) : Env where
  access := AccessRes.ok
  knobContent := ['1', '\n']
  knobOpenOk := true
  knobWriteOk := true
  prioOk := true
  pbkdf := some 1024
  mallocOk := true
  mlockOk := true
  suspendOk := f
  powerOpenOk := true
  powerWriteOk := true
  restoreOpenOk := true
  restoreWriteOk := true


/-! ### Closed-form characterization of the pipeline after the knob section -/

/-- Events emitted by the priority-elevation step. -/
def prioEvents (env : Env) : List Event :=
  if env.prioOk then [Event.setPriority] else [Event.setPriority, Event.warnPriority]

/-- The events `afterKnob` appends to the trace, as a function of the
environment, the device list and the `wasReset` flag. -/
def pipeSuffix (env : Env) (ds : List String) (w : Bool) : List Event :=
  prioEvents env ++
    match env.pbkdf with
    | none => []
    | some kb =>
      if env.mallocOk = false then []
      else if env.mlockOk = false then []
      else
        Event.reserve (argon2iMemSize kb) :: Event.sync ::
          (ds.map (fun n => Event.suspend n (env.suspendOk n)) ++
            (if env.powerOpenOk = false then []
             else if env.powerWriteOk = false then []
             else Event.powerWrite ::
               (if w then
                  (if env.restoreOpenOk = false then []
                   else if env.restoreWriteOk = false then []
                   else [Event.restore])
                else [])))

/-- The exit cause of `afterKnob`. -/
def pipeCause (env : Env) (w : Bool) : ExitCause :=
  match env.pbkdf with
  | none => ExitCause.pbkdfParams
  | some _ =>
    if env.mallocOk = false then ExitCause.alloc
    else if env.mlockOk = false then ExitCause.mlockFail
    else if env.powerOpenOk = false then ExitCause.powerOpen
    else if env.powerWriteOk = false then ExitCause.powerFail
    else if w then
      (if env.restoreOpenOk = false then ExitCause.restoreOpen
       else if env.restoreWriteOk = false then ExitCause.restoreWrite
       else ExitCause.completed)
    else ExitCause.completed

/-- The exit status of `afterKnob`. -/
def pipeStatus (env : Env) (ds : List String) (w : Bool) (st : Nat) : Nat :=
  if pipeCause env w = ExitCause.completed then
    (if ds.all env.suspendOk then st else 1)
  else 1

/-- The final knob content computed by `afterKnob`. -/
def pipeKnob (env : Env) (w : Bool) (k : Option (List Char)) : Option (List Char) :=
  if w = true ∧ pipeCause env w = ExitCause.completed then some ['1', '\n'] else k

theorem suspendSection_eq (env : Env) (ds : List String) (s : St) :
    suspendSection env ds s =
      { s with trace := s.trace ++ ds.map (fun n => Event.suspend n (env.suspendOk n)),
               status := if ds.all env.suspendOk then s.status else 1 } := by
  induction ds generalizing s with
  | nil => simp [suspendSection]
  | cons d ds ih =>
    by_cases h : env.suspendOk d = true
    · have step : suspendSection env (d :: ds) s
          = suspendSection env ds { s with trace := s.trace ++ [Event.suspend d true] } := by
        simp [suspendSection, h]
      rw [step, ih]
      simp [h, List.append_assoc]
    · have hb : env.suspendOk d = false := by
        revert h; rcases env.suspendOk d <;> simp
      have step : suspendSection env (d :: ds) s
          = suspendSection env ds
              { s with trace := s.trace ++ [Event.suspend d false], status := 1 } := by
        simp [suspendSection, hb]
      rw [step, ih]
      simp [hb, List.append_assoc, ite_self]

theorem suspendSectionCr_eq (env : Env) (ds : List String) (s : St) :
    suspendSectionCr env ds s =
      { s with trace := s.trace ++ ds.map (fun n => Event.suspend n (env.suspendOk n)),
               status := if ds.any env.suspendOk then 1 else s.status } := by
  induction ds generalizing s with
  | nil => simp [suspendSectionCr]
  | cons d ds ih =>
    by_cases h : env.suspendOk d = true
    · have step : suspendSectionCr env (d :: ds) s
          = suspendSectionCr env ds
              { s with trace := s.trace ++ [Event.suspend d true], status := 1 } := by
        simp [suspendSectionCr, h]
      rw [step, ih]
      simp [h, List.append_assoc, ite_self]
    · have hb : env.suspendOk d = false := by
        revert h; rcases env.suspendOk d <;> simp
      have step : suspendSectionCr env (d :: ds) s
          = suspendSectionCr env ds { s with trace := s.trace ++ [Event.suspend d false] } := by
        simp [suspendSectionCr, hb]
      rw [step, ih]
      simp [hb, List.append_assoc]

theorem afterKnob_eq (env : Env) (ds : List String) (s : St) :
    afterKnob env ds s =
      ⟨s.trace ++ pipeSuffix env ds s.wasReset,
       pipeStatus env ds s.wasReset s.status,
       pipeCause env s.wasReset,
       pipeKnob env s.wasReset s.knob,
       s.wasReset⟩ := by
  obtain ⟨t, k, w, st⟩ := s
  unfold afterKnob prioSection reserveSection syncSection powerSection restoreFinal died
  rcases hpb : env.pbkdf with _ | kb <;>
    rcases hp : env.prioOk <;> rcases hm : env.mallocOk <;> rcases hl : env.mlockOk <;>
    rcases hpo : env.powerOpenOk <;> rcases hpw : env.powerWriteOk <;> rcases w <;>
    rcases hro : env.restoreOpenOk <;> rcases hrw : env.restoreWriteOk <;>
    simp [pipeSuffix, prioEvents, pipeStatus, pipeCause, pipeKnob, suspendSection_eq,
      List.append_assoc, hpb, hp, hm, hl, hpo, hpw, hro, hrw]


/-- A value returned by `getLast?` is a member of the list. -/
theorem lastMem {α : Type} {l : List α} {a : α} (h : l.getLast? = some a) : a ∈ l := by
  induction l with
  | nil => simp at h
  | cons b t ih =>
    rcases t with _ | ⟨c, t2⟩
    · simp at h
      simp [h]
    · rw [List.getLast?_cons_cons] at h
      exact List.mem_cons_of_mem _ (ih h)

theorem count_restore_suspends (ds : List String) (g : String → Bool) :
    (ds.map (fun n => Event.suspend n (g n))).count Event.restore = 0 := by
  rw [List.count_eq_zero]
  simp

theorem count_disable_suspends (ds : List String) (g : String → Bool) :
    (ds.map (fun n => Event.suspend n (g n))).count Event.disable = 0 := by
  rw [List.count_eq_zero]
  simp

theorem warnOld_not_mem_suspends (ds : List String) (g : String → Bool) :
    Event.warnOldKernel ∉ ds.map (fun n => Event.suspend n (g n)) := by simp

theorem prioEvents_counts (env : Env) :
    (prioEvents env).count Event.restore = 0 ∧ (prioEvents env).count Event.disable = 0 ∧
    Event.warnOldKernel ∉ prioEvents env := by
  unfold prioEvents
  rcases env.prioOk <;> simp

/-- Trace-level facts about the pipeline suffix: it contains the restore
write exactly on the normal-completion path with `wasReset`, never contains
a disable write or the old-kernel warning, and on the normal-completion
path with `wasReset` it ends in the restore write. -/
theorem pipeSuffix_spec (env : Env) (ds : List String) (w : Bool) :
    ((pipeSuffix env ds w).count Event.restore
        = if w = true ∧ pipeCause env w = ExitCause.completed then 1 else 0) ∧
    (pipeSuffix env ds w).count Event.disable = 0 ∧
    Event.warnOldKernel ∉ pipeSuffix env ds w ∧
    (w = true → pipeCause env w = ExitCause.completed →
      ∃ u, pipeSuffix env ds w = u ++ [Event.restore]) := by
  obtain ⟨hr1, hr2, hr3⟩ := prioEvents_counts env
  unfold pipeSuffix pipeCause
  rcases hpb : env.pbkdf with _ | kb
  · simp [hpb, hr1, hr2, hr3, List.count_append]
  · rcases hm : env.mallocOk
    · simp [hpb, hm, hr1, hr2, hr3, List.count_append]
    · rcases hl : env.mlockOk
      · simp [hpb, hm, hl, hr1, hr2, hr3, List.count_append]
      · rcases hpo : env.powerOpenOk
        · simp [hpb, hm, hl, hpo, hr1, hr2, hr3, List.count_append, List.count_cons,
            count_restore_suspends, count_disable_suspends, warnOld_not_mem_suspends]
        · rcases hpw : env.powerWriteOk
          · simp [hpb, hm, hl, hpo, hpw, hr1, hr2, hr3, List.count_append, List.count_cons,
              count_restore_suspends, count_disable_suspends, warnOld_not_mem_suspends]
          · rcases w
            · simp [hpb, hm, hl, hpo, hpw, hr1, hr2, hr3, List.count_append, List.count_cons,
                count_restore_suspends, count_disable_suspends, warnOld_not_mem_suspends]
            · rcases hro : env.restoreOpenOk
              · simp [hpb, hm, hl, hpo, hpw, hro, hr1, hr2, hr3, List.count_append,
                  List.count_cons, count_restore_suspends, count_disable_suspends,
                  warnOld_not_mem_suspends]
              · rcases hrw : env.restoreWriteOk
                · simp [hpb, hm, hl, hpo, hpw, hro, hrw, hr1, hr2, hr3, List.count_append,
                    List.count_cons, count_restore_suspends, count_disable_suspends,
                    warnOld_not_mem_suspends]
                · refine ⟨?_, ?_, ?_, ?_⟩
                  · simp [hpb, hm, hl, hpo, hpw, hro, hrw, hr1, List.count_append,
                      List.count_cons, count_restore_suspends]
                  · simp [hpb, hm, hl, hpo, hpw, hro, hrw, hr2, List.count_append,
                      List.count_cons, count_disable_suspends]
                  · simp [hpb, hm, hl, hpo, hpw, hro, hrw, hr3, warnOld_not_mem_suspends]
                  · intro _ _
                    refine ⟨prioEvents env ++ Event.reserve (argon2iMemSize kb) :: Event.sync ::
                      (ds.map (fun n => Event.suspend n (env.suspendOk n)) ++ [Event.powerWrite]), ?_⟩
                    simp [hpb, hm, hl, hpo, hpw, hro, hrw, List.append_assoc]

/-- Complete case analysis of the knob section started from the initial
state. -/
theorem knobSection_cases (env : Env) :
    (env.access = AccessRes.enoent ∧
      knobSection env (initSt env)
        = Except.ok ⟨[Event.detect, Event.warnOldKernel], none, false, 0⟩) ∨
    (env.access = AccessRes.eother ∧
      knobSection env (initSt env)
        = Except.ok ⟨[Event.detect], some env.knobContent, false, 0⟩) ∨
    (env.access = AccessRes.ok ∧ env.knobContent[0]? = some '0' ∧
      knobSection env (initSt env)
        = Except.ok ⟨[Event.detect], some env.knobContent, false, 0⟩) ∨
    (env.access = AccessRes.ok ∧ env.knobContent[0]? = some '1' ∧
      knobSection env (initSt env)
        = Except.ok ⟨[Event.detect, Event.disable], some ['0', '\n'], true, 0⟩) ∨
    (∃ c w, c ≠ ExitCause.completed ∧
      knobSection env (initSt env) = Except.error ⟨[Event.detect], 1, c, initKnob env, w⟩) := by
  cases ha : env.access with
  | enoent =>
    left
    exact ⟨rfl, by simp [knobSection, initSt, initKnob, ha]⟩
  | eother =>
    right; left
    exact ⟨rfl, by simp [knobSection, initSt, initKnob, ha]⟩
  | ok =>
    by_cases ho : env.knobOpenOk = false
    · right; right; right; right
      exact ⟨ExitCause.knobOpen, false,
        by simp, by simp [knobSection, initSt, initKnob, died, ha, ho]⟩
    · rcases h1 : env.knobContent[1]? with _ | c2
      · right; right; right; right
        exact ⟨ExitCause.knobRead, false,
          by simp, by simp [knobSection, initSt, initKnob, died, ha, ho, h1]⟩
      · rcases h0 : env.knobContent[0]? with _ | c
        · right; right; right; right
          exact ⟨ExitCause.knobRead, false,
            by simp, by simp [knobSection, initSt, initKnob, died, ha, ho, h1, h0]⟩
        · by_cases hc0 : c = '0'
          · right; right; left
            subst hc0
            exact ⟨rfl, rfl, by simp [knobSection, initSt, initKnob, ha, ho, h1, h0]⟩
          · by_cases hc1 : c = '1'
            · subst hc1
              by_cases hw : env.knobWriteOk = false
              · right; right; right; right
                exact ⟨ExitCause.knobWrite, true,
                  by simp, by simp [knobSection, initSt, initKnob, died, ha, ho, h1, h0, hc0, hw]⟩
              · right; right; right; left
                exact ⟨rfl, rfl, by simp [knobSection, initSt, initKnob, ha, ho, h1, h0, hc0, hw]⟩
            · right; right; right; right
              exact ⟨ExitCause.unexpectedKnobValue, false,
                by simp, by simp [knobSection, initSt, initKnob, died, ha, ho, h1, h0, hc0, hc1]⟩

/-- Reading off a list by optional indexing over its index range reproduces
the list. -/
theorem range_map_getD {α : Type} (l : List α) (d : α) :
    (List.range l.length).map (fun i => l[i]?.getD d) = l := by
  induction l with
  | nil => simp
  | cons a t ih =>
    rw [List.length_cons, List.range_succ_eq_map, List.map_cons, List.map_map]
    have h : ((fun i => (a :: t)[i]?.getD d) ∘ Nat.succ) = fun i => t[i]?.getD d := by
      funext i
      simp
    rw [h, ih]
    simp

/-- Forward traversal (cryptsetup-suspend.c lines 51-54) reads the devices
in argument order. -/
theorem devicesOf_forward (prog : String) (names : List String) :
    devicesOf (prog :: names) false names.length = names := by
  unfold devicesOf
  have h : (fun i => (prog :: names).getD (i + 1) "") = fun i => names[i]?.getD "" := by
    funext i
    rw [List.getD_cons_succ, List.getD_eq_getElem?_getD]
  simp only [h, range_map_getD]
  simp

/-- Reverse traversal (cryptsetup-suspend.c lines 55-58) reads the devices
in reversed argument order. -/
theorem devicesOf_reverse (prog rflag : String) (names : List String) :
    devicesOf (prog :: rflag :: names) true names.length = names.reverse := by
  unfold devicesOf
  rw [if_neg (by simp)]
  have h1 : ∀ i ∈ List.range names.length,
      (prog :: rflag :: names).getD ((prog :: rflag :: names).length - i - 1) ""
        = names.reverse[i]?.getD "" := by
    intro i hi
    rw [List.mem_range] at hi
    have hidx : (prog :: rflag :: names).length - i - 1 = (names.length - 1 - i) + 2 := by
      simp only [List.length_cons]
      omega
    rw [hidx, show (names.length - 1 - i) + 2 = ((names.length - 1 - i) + 1) + 1 from rfl,
      List.getD_cons_succ, List.getD_cons_succ, List.getD_eq_getElem?_getD,
      List.getElem?_reverse hi]
  rw [List.map_congr_left h1]
  have h2 := range_map_getD names.reverse ""
  rwa [List.length_reverse] at h2

/-! ### Run-level helper equations -/

theorem run_cs_usage (env : Env) (argv : List String) (hp : parseArgs argv = none) :
    run_cs env argv = ⟨[], 1, ExitCause.usage, initKnob env, false⟩ := by
  unfold run_cs
  rw [hp]

theorem run_cs_eq (env : Env) (argv : List String) (rev : Bool) (dsz : Nat) (s1 : St)
    (hp : parseArgs argv = some (rev, dsz))
    (hk : knobSection env (initSt env) = Except.ok s1) :
    run_cs env argv = afterKnob env (devicesOf argv rev dsz) s1 := by
  unfold run_cs
  rw [hp, hk]

theorem run_cs_eq_err (env : Env) (argv : List String) (rev : Bool) (dsz : Nat) (r : RunResult)
    (hp : parseArgs argv = some (rev, dsz))
    (hk : knobSection env (initSt env) = Except.error r) :
    run_cs env argv = r := by
  unfold run_cs
  rw [hp, hk]

/-! ### Claim theorems -/

/-- C1 (counterexample): a run of cryptsetup-suspend in which the knob was
observed enabled and disabled (`wasReset = true`) and the power-state file
cannot be opened exits fatally without ever performing the restore write;
the knob is left disabled.  This refutes the claim that the restore is
performed on every exit path with `wasReset = true`. -/
theorem C1_counterexample :
    (run_cs { okEnv (fun _ => true) with powerOpenOk := false }
        ["cryptsetup-suspend", "ctest1"]).wasReset = true ∧
    Event.restore ∉ (run_cs { okEnv (fun _ => true) with powerOpenOk := false }
        ["cryptsetup-suspend", "ctest1"]).trace ∧
    (run_cs { okEnv (fun _ => true) with powerOpenOk := false }
        ["cryptsetup-suspend", "ctest1"]).cause = ExitCause.powerOpen ∧
    (run_cs { okEnv (fun _ => true) with powerOpenOk := false }
        ["cryptsetup-suspend", "ctest1"]).knob = some ['0', '\n'] := by decide

/-- C2 (code bug, cryptroot-suspend.c lines 61-69): the `rv = EXIT_FAILURE`
assignment sits in the success branch of the device loop.  With a single
device whose suspend succeeds and all I/O succeeding, the process completes
and exits with status 1; with the device suspend failing it exits with
status 0.  This is the exact inversion of the claimed aggregation.  The
sibling program cryptsetup-suspend.c implements the claim correctly: with
devices A, B, C and only B failing, every device has its suspend attempted
exactly once and the exit status is 1. -/
theorem C2_cryptroot_status_inverted :
    (run_cr (okEnv (fun _ => true)) ["cryptroot-suspend", "ctest1"]).cause
        = ExitCause.completed ∧
    (run_cr (okEnv (fun _ => true)) ["cryptroot-suspend", "ctest1"]).trace.count
        (Event.suspend "ctest1" true) = 1 ∧
    (run_cr (okEnv (fun _ => true)) ["cryptroot-suspend", "ctest1"]).status = 1 ∧
    (run_cr (okEnv (fun _ => false)) ["cryptroot-suspend", "ctest1"]).cause
        = ExitCause.completed ∧
    (run_cr (okEnv (fun _ => false)) ["cryptroot-suspend", "ctest1"]).status = 0 ∧
    (run_cs (okEnv (fun n => !(n == "B"))) ["cryptsetup-suspend", "A", "B", "C"]).status = 1 ∧
    (run_cs (okEnv (fun n => !(n == "B"))) ["cryptsetup-suspend", "A", "B", "C"]).trace.count
        (Event.suspend "A" true) = 1 ∧
    (run_cs (okEnv (fun n => !(n == "B"))) ["cryptsetup-suspend", "A", "B", "C"]).trace.count
        (Event.suspend "B" false) = 1 ∧
    (run_cs (okEnv (fun n => !(n == "B"))) ["cryptsetup-suspend", "A", "B", "C"]).trace.count
        (Event.suspend "C" true) = 1 := by decide

/-- C3: end-to-end scenario of cryptsetup-suspend with the knob initially
enabled, devices `["ctest1", "ctest2"]`, no reverse flag, and every system
call succeeding: exit status 0, knob restored to enabled, and the named
operations occur exactly in the order detect, disable, sync,
suspend(ctest1), suspend(ctest2), suspend-to-RAM, restore. -/
theorem C3_end_to_end_trace :
    (run_cs (okEnv (fun _ => true)) ["cryptsetup-suspend", "ctest1", "ctest2"]).status = 0 ∧
    (run_cs (okEnv (fun _ => true)) ["cryptsetup-suspend", "ctest1", "ctest2"]).cause
        = ExitCause.completed ∧
    (run_cs (okEnv (fun _ => true)) ["cryptsetup-suspend", "ctest1", "ctest2"]).knob
        = some ['1', '\n'] ∧
    (run_cs (okEnv (fun _ => true)) ["cryptsetup-suspend", "ctest1", "ctest2"]).trace.filter
        claimEvent
      = [Event.detect, Event.disable, Event.sync, Event.suspend "ctest1" true,
         Event.suspend "ctest2" true, Event.powerWrite, Event.restore] := by decide

/-- C6 (counterexample): with the knob file containing the single character
`'1'` (no trailing byte), the first state character is `'1'` yet the run
aborts fatally in the read step (the code performs a second `fgetc` and
fails when it returns EOF), before any sync or device suspend.  This
refutes the claim that detect reads exactly one character and succeeds
exactly when that character is `'0'` or `'1'`. -/
theorem C6_counterexample :
    ({ okEnv (fun _ => true) with knobContent := ['1'] } : Env).knobContent[0]? = some '1' ∧
    (run_cs { okEnv (fun _ => true) with knobContent := ['1'] }
        ["cryptsetup-suspend", "ctest1"]).cause = ExitCause.knobRead ∧
    (run_cs { okEnv (fun _ => true) with knobContent := ['1'] }
        ["cryptsetup-suspend", "ctest1"]).status = 1 ∧
    Event.sync ∉ (run_cs { okEnv (fun _ => true) with knobContent := ['1'] }
        ["cryptsetup-suspend", "ctest1"]).trace := by decide

/-- C7 (counterexample): with the PBKDF query returning a parameter set
whose `max_memory_kb` is 0, the run does not fail: it allocates a zero-byte
reservation (`reserve 0` appears in the trace) and completes with status 0.
This refutes the claim that a zero maximum memory fails with a
`PbkdfUnavailable`-class error. -/
theorem C7_counterexample :
    (run_cs { okEnv (fun _ => true) with pbkdf := some 0 }
        ["cryptsetup-suspend", "ctest1"]).cause = ExitCause.completed ∧
    Event.reserve 0 ∈ (run_cs { okEnv (fun _ => true) with pbkdf := some 0 }
        ["cryptsetup-suspend", "ctest1"]).trace ∧
    (run_cs { okEnv (fun _ => true) with pbkdf := some 0 }
        ["cryptsetup-suspend", "ctest1"]).status = 0 := by decide

/-- C8 (counterexample): with every device suspending successfully (the
accumulated status is 0, as the identical run with a working restore shows)
but the restore `fopen` failing, the process exits with status 1 via the
fatal `err` path instead of returning the accumulated status 0.  This
refutes the claim that a restore failure leaves the exit status at the
accumulated suspend-outcome status. -/
theorem C8_counterexample :
    (run_cs { okEnv (fun _ => true) with restoreOpenOk := false }
        ["cryptsetup-suspend", "ctest1"]).wasReset = true ∧
    (run_cs { okEnv (fun _ => true) with restoreOpenOk := false }
        ["cryptsetup-suspend", "ctest1"]).status = 1 ∧
    (run_cs { okEnv (fun _ => true) with restoreOpenOk := false }
        ["cryptsetup-suspend", "ctest1"]).cause = ExitCause.restoreOpen ∧
    (run_cs (okEnv (fun _ => true)) ["cryptsetup-suspend", "ctest1"]).status = 0 := by decide

/-- C9 (counterexample): at `max_memory_kb = 2^21` the stored 32-bit `int`
is negative (`-2^31`), and the `size_t` byte count actually passed to
`malloc`/`mlock` and bounding the touch loop is `2^64 - 2^31`, which is not
fewer bytes than the key-derivation maximum `2^21 * 1024 = 2^31`.  This
refutes the claim that for every `max_memory_kb ≥ 2^21` the buffer covers
fewer bytes than the maximum. -/
theorem C9_counterexample :
    argon2iMemSize (2 ^ 21) = -(2 ^ 31) ∧
    mallocRequest (2 ^ 21) = 2 ^ 64 - 2 ^ 31 ∧
    ¬ (mallocRequest (2 ^ 21) < 2 ^ 21 * 1024) := by decide

/-- C9 (amended): the reservation size is computed in 32-bit arithmetic and
stored in a signed 32-bit `int`, so for every `max_memory_kb ≥ 2^21` the
stored value differs from the mathematical byte count (e.g. `2^22`, i.e.
4 GiB, yields 0); the bytes actually requested and covered are fewer than
the key-derivation maximum exactly when the wrapped value is nonnegative as
a signed 32-bit integer (`kb * 1024 mod 2^32 < 2^31`); when it is negative
the `size_t` conversion makes the request larger than the maximum instead. -/
theorem C9_wraparound :
    (∀ kb : Nat, 2 ^ 21 ≤ kb → kb < 2 ^ 32 →
      (argon2iMemSize kb ≠ ((kb * 1024 : Nat) : Int) ∧
       (mallocRequest kb < kb * 1024 ↔ kb * 1024 % 2 ^ 32 < 2 ^ 31))) ∧
    argon2iMemSize (2 ^ 22) = 0 ∧ mallocRequest (2 ^ 22) = 0 := by
  refine ⟨?_, by decide, by decide⟩
  intro kb h1 h2
  unfold mallocRequest toSizeT argon2iMemSize toInt32
  constructor
  · split_ifs with hu <;> omega
  · split_ifs with hu <;> omega

/-- C9 (witness): the amended wraparound theorem applied at
`max_memory_kb = 2^22`. -/
theorem C9_witness :
    argon2iMemSize (2 ^ 22) ≠ ((2 ^ 22 * 1024 : Nat) : Int) ∧
    (mallocRequest (2 ^ 22) < 2 ^ 22 * 1024 ↔ 2 ^ 22 * 1024 % 2 ^ 32 < 2 ^ 31) :=
  C9_wraparound.1 (2 ^ 22) (by decide) (by decide)

theorem knobWrites_append (t u : List Event) :
    knobWrites (t ++ u) = knobWrites t + knobWrites u := by
  unfold knobWrites
  rw [List.count_append, List.count_append]
  omega

theorem knobWrites_pipeSuffix (env : Env) (ds : List String) (w : Bool) :
    knobWrites (pipeSuffix env ds w)
      = if w = true ∧ pipeCause env w = ExitCause.completed then 1 else 0 := by
  obtain ⟨hc1, hc2, _, _⟩ := pipeSuffix_spec env ds w
  unfold knobWrites
  rw [hc1, hc2]
  simp

/-- C1 (amended): in every run of cryptsetup-suspend in which the sync knob
was observed enabled and was disabled (`wasReset = true`), the restore
write is performed, and is the last trace event, exactly when the run
completes normally; every fatal-error exit occurring after the disable —
including a failure to open or write the power-state control file — exits
without performing the restore. -/
theorem C1_restore_only_on_normal_exit (env : Env) (argv : List String)
    (h : (run_cs env argv).wasReset = true) :
    ((run_cs env argv).trace.getLast? = some Event.restore
        ↔ (run_cs env argv).cause = ExitCause.completed) ∧
    ((run_cs env argv).cause ≠ ExitCause.completed
        → Event.restore ∉ (run_cs env argv).trace) := by
  rcases hp : parseArgs argv with _ | ⟨rev, dsz⟩
  · rw [run_cs_usage env argv hp] at h
    simp at h
  · rcases knobSection_cases env with ⟨ha, hk⟩ | ⟨ha, hk⟩ | ⟨ha, h0, hk⟩ | ⟨ha, h0, hk⟩
      | ⟨c, w, hc, hk⟩
    · rw [run_cs_eq env argv rev dsz _ hp hk, afterKnob_eq] at h
      simp at h
    · rw [run_cs_eq env argv rev dsz _ hp hk, afterKnob_eq] at h
      simp at h
    · rw [run_cs_eq env argv rev dsz _ hp hk, afterKnob_eq] at h
      simp at h
    · rw [run_cs_eq env argv rev dsz _ hp hk, afterKnob_eq]
      dsimp only
      obtain ⟨hc1, _, _, hc4⟩ := pipeSuffix_spec env (devicesOf argv rev dsz) true
      by_cases hcc : pipeCause env true = ExitCause.completed
      · obtain ⟨u, hu⟩ := hc4 rfl hcc
        constructor
        · rw [hu, ← List.append_assoc, List.getLast?_concat]
          simp [hcc]
        · intro hne
          exact absurd hcc hne
      · have hnr : Event.restore ∉ pipeSuffix env (devicesOf argv rev dsz) true := by
          rw [← List.count_eq_zero, hc1]
          simp [hcc]
        constructor
        · constructor
          · intro hg
            have hmem := lastMem hg
            rw [List.mem_append] at hmem
            rcases hmem with hmem | hmem
            · simp at hmem
            · exact absurd hmem hnr
          · intro hg
            exact absurd hg hcc
        · intro _
          rw [List.mem_append]
          rintro (hmem | hmem)
          · simp at hmem
          · exact absurd hmem hnr
    · rw [run_cs_eq_err env argv rev dsz _ hp hk]
      dsimp only
      refine ⟨⟨fun hg => ?_, fun hg => absurd hg hc⟩, fun _ => by simp⟩
      simp at hg

/-- C1 (witness): the amended theorem applied to the all-succeeding run
with the knob initially enabled. -/
theorem C1_witness :
    ((run_cs (okEnv (fun _ => true)) ["cryptsetup-suspend", "ctest1"]).trace.getLast?
        = some Event.restore
      ↔ (run_cs (okEnv (fun _ => true)) ["cryptsetup-suspend", "ctest1"]).cause
        = ExitCause.completed) :=
  (C1_restore_only_on_normal_exit (okEnv (fun _ => true))
    ["cryptsetup-suspend", "ctest1"] (by decide)).1

/-- C4: for every environment and argument vector, the knob file is written
at most twice per run; when the knob was absent it is never written and
stays absent; when it was already disabled (`"0\n"`) it is never written
and keeps its content; and when it was enabled (`"1\n"`) and the run
completes successfully it is written exactly twice (one disable, one
restore) and ends enabled again — so after a successful run the final
observable knob state equals the initial one in all three cases. -/
theorem C4_knob_round_trip (env : Env) (argv : List String) :
    knobWrites (run_cs env argv).trace ≤ 2 ∧
    (env.access = AccessRes.enoent →
      (run_cs env argv).knob = none ∧ knobWrites (run_cs env argv).trace = 0) ∧
    (env.access = AccessRes.ok → env.knobContent = ['0', '\n'] →
      (run_cs env argv).knob = some ['0', '\n'] ∧ knobWrites (run_cs env argv).trace = 0) ∧
    (env.access = AccessRes.ok → env.knobContent = ['1', '\n'] →
      (run_cs env argv).cause = ExitCause.completed →
      (run_cs env argv).knob = some ['1', '\n'] ∧ knobWrites (run_cs env argv).trace = 2) := by
  rcases hp : parseArgs argv with _ | ⟨rev, dsz⟩
  · rw [run_cs_usage env argv hp]
    refine ⟨by simp [knobWrites], fun ha => ?_, fun ha hcon => ?_, fun ha hcon hcc => ?_⟩
    · simp [initKnob, ha, knobWrites]
    · simp [initKnob, ha, hcon, knobWrites]
    · simp at hcc
  · rcases knobSection_cases env with ⟨ha, hk⟩ | ⟨ha, hk⟩ | ⟨ha, h0, hk⟩ | ⟨ha, h0, hk⟩
      | ⟨c, w, hc, hk⟩
    · rw [run_cs_eq env argv rev dsz _ hp hk, afterKnob_eq]
      dsimp only
      rw [knobWrites_append, knobWrites_pipeSuffix]
      refine ⟨by simp [knobWrites], fun _ => ?_, fun h2 _ => ?_, fun h2 _ _ => ?_⟩
      · simp [pipeKnob, knobWrites]
      · rw [ha] at h2
        simp at h2
      · rw [ha] at h2
        simp at h2
    · rw [run_cs_eq env argv rev dsz _ hp hk, afterKnob_eq]
      dsimp only
      rw [knobWrites_append, knobWrites_pipeSuffix]
      refine ⟨by simp [knobWrites], fun h2 => ?_, fun h2 _ => ?_, fun h2 _ _ => ?_⟩
      · rw [ha] at h2
        simp at h2
      · rw [ha] at h2
        simp at h2
      · rw [ha] at h2
        simp at h2
    · rw [run_cs_eq env argv rev dsz _ hp hk, afterKnob_eq]
      dsimp only
      rw [knobWrites_append, knobWrites_pipeSuffix]
      refine ⟨by simp [knobWrites], fun h2 => ?_, fun _ hcon => ?_, fun _ hcon _ => ?_⟩
      · rw [ha] at h2
        simp at h2
      · simp [pipeKnob, knobWrites, hcon]
      · rw [hcon] at h0
        simp at h0
    · rw [run_cs_eq env argv rev dsz _ hp hk, afterKnob_eq]
      dsimp only
      rw [knobWrites_append, knobWrites_pipeSuffix]
      refine ⟨?_, fun h2 => ?_, fun _ hcon => ?_, fun _ _ hcc => ?_⟩
      · split_ifs <;> simp [knobWrites]
      · rw [ha] at h2
        simp at h2
      · rw [hcon] at h0
        simp at h0
      · simp [pipeKnob, knobWrites, hcc]
    · rw [run_cs_eq_err env argv rev dsz _ hp hk]
      dsimp only
      refine ⟨by simp [knobWrites], fun ha => ?_, fun ha hcon => ?_, fun _ _ hcc => ?_⟩
      · simp [initKnob, ha, knobWrites]
      · simp [initKnob, ha, hcon, knobWrites]
      · exact absurd hcc hc

/-- C4 (witness): the round-trip theorem applied to the all-succeeding run
with the knob initially enabled: final knob state enabled, exactly two
writes. -/
theorem C4_witness :
    (run_cs (okEnv (fun _ => true)) ["cryptsetup-suspend", "ctest1"]).knob
        = some ['1', '\n'] ∧
    knobWrites (run_cs (okEnv (fun _ => true)) ["cryptsetup-suspend", "ctest1"]).trace = 2 :=
  (C4_knob_round_trip (okEnv (fun _ => true)) ["cryptsetup-suspend", "ctest1"]).2.2.2
    rfl rfl (by decide)

theorem filter_suspends (ds : List String) (g : String → Bool) :
    (ds.map (fun n => Event.suspend n (g n))).filter isSuspendEv
      = ds.map (fun n => Event.suspend n (g n)) := by
  rw [List.filter_eq_self]
  intro a ha
  rw [List.mem_map] at ha
  obtain ⟨n, _, rfl⟩ := ha
  rfl

/-- C5: with every system call succeeding, the devices named on the command
line are attempted in the given order without the reverse flag, and in the
exactly reversed order with the `-r` flag, as witnessed by the sequence of
device-suspend events in the trace. -/
theorem C5_device_order (f : String → Bool) (prog : String) (names : List String)
    (hne : names ≠ []) (h1 : names.head? ≠ some "-r") (h2 : names.head? ≠ some "--reverse") :
    ((run_cs (okEnv f) (prog :: names)).trace.filter isSuspendEv
        = names.map (fun n => Event.suspend n (f n))) ∧
    ((run_cs (okEnv f) (prog :: "-r" :: names)).trace.filter isSuspendEv
        = names.reverse.map (fun n => Event.suspend n (f n))) := by
  obtain ⟨n0, rest, rfl⟩ : ∃ n0 rest, names = n0 :: rest := by
    rcases names with _ | ⟨n0, rest⟩
    · exact absurd rfl hne
    · exact ⟨n0, rest, rfl⟩
  rw [List.head?_cons] at h1 h2
  have hn1 : n0 ≠ "-r" := by
    intro hq
    exact h1 (by rw [hq])
  have hn2 : n0 ≠ "--reverse" := by
    intro hq
    exact h2 (by rw [hq])
  have hpf : parseArgs (prog :: n0 :: rest) = some (false, (n0 :: rest).length) := by
    have hlen : ¬ ((prog :: n0 :: rest) : List String).length < 2 := by
      simp only [List.length_cons]
      omega
    have hflag : ¬ ((prog :: n0 :: rest).getD 1 "" = "-r"
        ∨ (prog :: n0 :: rest).getD 1 "" = "--reverse") := by
      rw [List.getD_cons_succ, List.getD_cons_zero]
      push_neg
      exact ⟨hn1, hn2⟩
    unfold parseArgs
    rw [if_neg hlen, if_neg hflag]
    simp only [List.length_cons]
    norm_num
  have hpr : parseArgs (prog :: "-r" :: n0 :: rest)
      = some (true, (n0 :: rest).length) := by
    have hlen : ¬ ((prog :: "-r" :: n0 :: rest) : List String).length < 2 := by
      simp only [List.length_cons]
      omega
    have hlen3 : ¬ ((prog :: "-r" :: n0 :: rest) : List String).length < 3 := by
      simp only [List.length_cons]
      omega
    have hflag : (prog :: "-r" :: n0 :: rest).getD 1 "" = "-r"
        ∨ (prog :: "-r" :: n0 :: rest).getD 1 "" = "--reverse" := by
      rw [List.getD_cons_succ, List.getD_cons_zero]
      left
      rfl
    unfold parseArgs
    rw [if_neg hlen, if_pos hflag, if_neg hlen3]
    have harith : (prog :: "-r" :: n0 :: rest).length - 2 = (n0 :: rest).length := by
      simp only [List.length_cons]
      omega
    rw [harith]
  constructor
  · rw [run_cs_eq (okEnv f) (prog :: n0 :: rest) false (n0 :: rest).length
        ⟨[Event.detect, Event.disable], some ['0', '\n'], true, 0⟩ hpf rfl,
      devicesOf_forward, afterKnob_eq]
    dsimp only
    rw [List.filter_append]
    have hsuf : pipeSuffix (okEnv f) (n0 :: rest) true
        = [Event.setPriority] ++ Event.reserve (argon2iMemSize 1024) :: Event.sync ::
            (((n0 :: rest).map (fun n => Event.suspend n (f n))) ++
              (Event.powerWrite :: [Event.restore])) := rfl
    rw [hsuf, List.filter_append]
    simp only [List.filter_cons, List.filter_append]
    simp [isSuspendEv, filter_suspends]
  · rw [run_cs_eq (okEnv f) (prog :: "-r" :: n0 :: rest) true (n0 :: rest).length
        ⟨[Event.detect, Event.disable], some ['0', '\n'], true, 0⟩ hpr rfl,
      devicesOf_reverse, afterKnob_eq]
    dsimp only
    rw [List.filter_append]
    have hsuf : pipeSuffix (okEnv f) (n0 :: rest).reverse true
        = [Event.setPriority] ++ Event.reserve (argon2iMemSize 1024) :: Event.sync ::
            (((n0 :: rest).reverse.map (fun n => Event.suspend n (f n))) ++
              (Event.powerWrite :: [Event.restore])) := rfl
    rw [hsuf, List.filter_append]
    simp only [List.filter_cons, List.filter_append]
    simp [isSuspendEv, filter_suspends]

/-- C5 (witness): the device-order theorem applied to the list
`["A", "B", "C"]` with every suspend succeeding: forward order A, B, C and
reverse order C, B, A. -/
theorem C5_witness :
    ((run_cs (okEnv (fun _ => true)) ["p", "A", "B", "C"]).trace.filter isSuspendEv
        = ["A", "B", "C"].map (fun n => Event.suspend n true)) ∧
    ((run_cs (okEnv (fun _ => true)) ["p", "-r", "A", "B", "C"]).trace.filter isSuspendEv
        = ["A", "B", "C"].reverse.map (fun n => Event.suspend n true)) :=
  C5_device_order (fun _ => true) "p" ["A", "B", "C"] (by decide) (by decide) (by decide)

/-- C6 (amended): when the knob file exists with working I/O, the code
reads the state character and then requires a second read to succeed: if
the file has no second character the run aborts fatally in the read step
(`IoError` class), even when the first character is `'0'` or `'1'`; when a
second character is present, the knob section proceeds exactly when the
first character is `'0'` or `'1'`, and any other first character aborts
the whole run fatally with the unexpected-value error before any sync,
device suspend or suspend-to-RAM write. -/
theorem C6_knob_value_check (env : Env) (argv : List String) (rev : Bool) (dsz : Nat)
    (ha : env.access = AccessRes.ok) (ho : env.knobOpenOk = true) (hw : env.knobWriteOk = true)
    (hp : parseArgs argv = some (rev, dsz)) :
    (env.knobContent[1]? = none → (run_cs env argv).cause = ExitCause.knobRead) ∧
    (∀ c2 : Char, env.knobContent[1]? = some c2 →
      ((∃ s1, knobSection env (initSt env) = Except.ok s1)
        ↔ (env.knobContent[0]? = some '0' ∨ env.knobContent[0]? = some '1'))) ∧
    (∀ c c2 : Char, env.knobContent[0]? = some c → env.knobContent[1]? = some c2 →
      c ≠ '0' → c ≠ '1' →
      (run_cs env argv).cause = ExitCause.unexpectedKnobValue ∧
      (run_cs env argv).status = 1 ∧
      (∀ n b, Event.suspend n b ∉ (run_cs env argv).trace) ∧
      Event.powerWrite ∉ (run_cs env argv).trace ∧
      Event.sync ∉ (run_cs env argv).trace) := by
  refine ⟨?_, ?_, ?_⟩
  · intro h1
    have hk : knobSection env (initSt env)
        = Except.error ⟨[Event.detect], 1, ExitCause.knobRead, initKnob env, false⟩ := by
      simp [knobSection, initSt, died, ha, ho, h1]
    rw [run_cs_eq_err env argv rev dsz _ hp hk]
  · intro c2 h1
    constructor
    · rintro ⟨s1, hs1⟩
      by_contra hno
      push_neg at hno
      obtain ⟨hno0, hno1⟩ := hno
      rcases h0 : env.knobContent[0]? with _ | c
      · have hnil : env.knobContent = [] := by
          cases hcon : env.knobContent with
          | nil => rfl
          | cons a t =>
            rw [hcon] at h0
            simp at h0
        rw [hnil] at h1
        simp at h1
      · have hc0 : c ≠ '0' := fun hq => hno0 (hq ▸ h0)
        have hc1 : c ≠ '1' := fun hq => hno1 (hq ▸ h0)
        have hk : knobSection env (initSt env)
            = Except.error ⟨[Event.detect], 1, ExitCause.unexpectedKnobValue,
                initKnob env, false⟩ := by
          simp [knobSection, initSt, died, ha, ho, h0, h1, hc0, hc1]
        rw [hk] at hs1
        simp at hs1
    · rintro (h0 | h0)
      · refine ⟨⟨[Event.detect], initKnob env, false, 0⟩, ?_⟩
        simp [knobSection, initSt, ha, ho, h1, h0]
      · refine ⟨⟨[Event.detect, Event.disable], some ['0', '\n'], true, 0⟩, ?_⟩
        simp [knobSection, initSt, ha, ho, hw, h1, h0]
  · intro c c2 h0 h1 hc0 hc1
    have hk : knobSection env (initSt env)
        = Except.error ⟨[Event.detect], 1, ExitCause.unexpectedKnobValue,
            initKnob env, false⟩ := by
      simp [knobSection, initSt, died, ha, ho, h0, h1, hc0, hc1]
    rw [run_cs_eq_err env argv rev dsz _ hp hk]
    refine ⟨rfl, rfl, ?_, ?_, ?_⟩ <;> simp

/-- C6 (witness): the amended theorem applied to the knob content
`"x\n"`: the run aborts with the unexpected-value error and performs no
sync, device suspend or suspend-to-RAM write. -/
theorem C6_witness :
    (run_cs { okEnv (fun _ => true) with knobContent := ['x', '\n'] }
        ["cryptsetup-suspend", "ctest1"]).cause = ExitCause.unexpectedKnobValue ∧
    (run_cs { okEnv (fun _ => true) with knobContent := ['x', '\n'] }
        ["cryptsetup-suspend", "ctest1"]).status = 1 ∧
    (∀ n b, Event.suspend n b
        ∉ (run_cs { okEnv (fun _ => true) with knobContent := ['x', '\n'] }
            ["cryptsetup-suspend", "ctest1"]).trace) ∧
    Event.powerWrite ∉ (run_cs { okEnv (fun _ => true) with knobContent := ['x', '\n'] }
        ["cryptsetup-suspend", "ctest1"]).trace ∧
    Event.sync ∉ (run_cs { okEnv (fun _ => true) with knobContent := ['x', '\n'] }
        ["cryptsetup-suspend", "ctest1"]).trace :=
  (C6_knob_value_check _ _ false 1 rfl rfl rfl (by decide)).2.2 'x' '\n' rfl rfl
    (by decide) (by decide)

/-- C7 (amended): the reservation step checks only whether the PBKDF query
returned a parameter set at all: a missing parameter set is the only
`PbkdfUnavailable`-class fatal error, while a parameter set with
`max_memory_kb = 0` yields a zero-byte reservation (`reserve (argon2iMemSize
kb)`, which is 0 at `kb = 0`) and the run proceeds to completion. -/
theorem C7_zero_mem_proceeds (kb : Nat) :
    (run_cs { okEnv (fun _ => true) with pbkdf := some kb }
        ["cryptsetup-suspend", "ctest1"]).cause = ExitCause.completed ∧
    Event.reserve (argon2iMemSize kb)
        ∈ (run_cs { okEnv (fun _ => true) with pbkdf := some kb }
            ["cryptsetup-suspend", "ctest1"]).trace ∧
    argon2iMemSize 0 = 0 ∧
    (run_cs { okEnv (fun _ => true) with pbkdf := none }
        ["cryptsetup-suspend", "ctest1"]).cause = ExitCause.pbkdfParams := by
  refine ⟨rfl, ?_, by decide, by decide⟩
  rw [run_cs_eq { okEnv (fun _ => true) with pbkdf := some kb }
      ["cryptsetup-suspend", "ctest1"] false 1
      ⟨[Event.detect, Event.disable], some ['0', '\n'], true, 0⟩ rfl rfl, afterKnob_eq]
  dsimp only
  simp [pipeSuffix, prioEvents, okEnv, devicesOf]

/-- C8 (amended): when the knob was reset and the final restore step itself
fails (reopening or rewriting the knob file), the process exits through the
fatal `err` path with status 1, replacing the accumulated suspend-outcome
status — regardless of the per-device outcomes `f`. -/
theorem C8_restore_failure_is_fatal (f : String → Bool) (argv : List String)
    (rev : Bool) (dsz : Nat) (hp : parseArgs argv = some (rev, dsz)) :
    ((run_cs { okEnv f with restoreOpenOk := false } argv).cause = ExitCause.restoreOpen ∧
     (run_cs { okEnv f with restoreOpenOk := false } argv).status = 1) ∧
    ((run_cs { okEnv f with restoreWriteOk := false } argv).cause = ExitCause.restoreWrite ∧
     (run_cs { okEnv f with restoreWriteOk := false } argv).status = 1) := by
  constructor
  · rw [run_cs_eq { okEnv f with restoreOpenOk := false } argv rev dsz
        ⟨[Event.detect, Event.disable], some ['0', '\n'], true, 0⟩ hp rfl, afterKnob_eq]
    exact ⟨rfl, rfl⟩
  · rw [run_cs_eq { okEnv f with restoreWriteOk := false } argv rev dsz
        ⟨[Event.detect, Event.disable], some ['0', '\n'], true, 0⟩ hp rfl, afterKnob_eq]
    exact ⟨rfl, rfl⟩

/-- C8 (witness): the amended theorem applied to a run whose only failure
is the restore reopen: despite the successful device suspend (accumulated
status 0), the exit status is 1. -/
theorem C8_witness :
    (run_cs { okEnv (fun _ => true) with restoreOpenOk := false }
        ["cryptsetup-suspend", "ctest1"]).cause = ExitCause.restoreOpen ∧
    (run_cs { okEnv (fun _ => true) with restoreOpenOk := false }
        ["cryptsetup-suspend", "ctest1"]).status = 1 :=
  (C8_restore_failure_is_fatal (fun _ => true) ["cryptsetup-suspend", "ctest1"]
    false 1 (by decide)).1

/-- C10: when the writability check on the knob path fails with an errno
other than ENOENT, the run silently proceeds exactly as in the absent-knob
case: no old-kernel warning is emitted, the knob is never written and keeps
its content, and the rest of the run (trace, status, cause) is identical to
the absent-knob run apart from the warning the latter prints; the
old-kernel warning is emitted only when the errno is ENOENT. -/
theorem C10_non_enoent_silent (env : Env) (argv : List String)
    (h : env.access = AccessRes.eother) :
    Event.warnOldKernel ∉ (run_cs env argv).trace ∧
    knobWrites (run_cs env argv).trace = 0 ∧
    (run_cs env argv).knob = some env.knobContent ∧
    (run_cs env argv).wasReset = false ∧
    (run_cs env argv).trace
      = ((run_cs { env with access := AccessRes.enoent } argv).trace).erase
          Event.warnOldKernel ∧
    (run_cs env argv).status = (run_cs { env with access := AccessRes.enoent } argv).status ∧
    (run_cs env argv).cause = (run_cs { env with access := AccessRes.enoent } argv).cause ∧
    (∀ (e2 : Env) (a2 : List String),
      Event.warnOldKernel ∈ (run_cs e2 a2).trace → e2.access = AccessRes.enoent) := by
  have hwarn : ∀ (e2 : Env) (a2 : List String),
      Event.warnOldKernel ∈ (run_cs e2 a2).trace → e2.access = AccessRes.enoent := by
    intro e2 a2 hm
    rcases hp2 : parseArgs a2 with _ | ⟨rev2, dsz2⟩
    · rw [run_cs_usage e2 a2 hp2] at hm
      simp at hm
    · rcases knobSection_cases e2 with ⟨ha2, hk2⟩ | ⟨ha2, hk2⟩ | ⟨ha2, h02, hk2⟩
        | ⟨ha2, h02, hk2⟩ | ⟨c2, w2, hc2, hk2⟩
      · exact ha2
      · rw [run_cs_eq e2 a2 rev2 dsz2 _ hp2 hk2, afterKnob_eq] at hm
        dsimp only at hm
        obtain ⟨_, _, hc3, _⟩ := pipeSuffix_spec e2 (devicesOf a2 rev2 dsz2) false
        rw [List.mem_append] at hm
        rcases hm with hm | hm
        · simp at hm
        · exact absurd hm hc3
      · rw [run_cs_eq e2 a2 rev2 dsz2 _ hp2 hk2, afterKnob_eq] at hm
        dsimp only at hm
        obtain ⟨_, _, hc3, _⟩ := pipeSuffix_spec e2 (devicesOf a2 rev2 dsz2) false
        rw [List.mem_append] at hm
        rcases hm with hm | hm
        · simp at hm
        · exact absurd hm hc3
      · rw [run_cs_eq e2 a2 rev2 dsz2 _ hp2 hk2, afterKnob_eq] at hm
        dsimp only at hm
        obtain ⟨_, _, hc3, _⟩ := pipeSuffix_spec e2 (devicesOf a2 rev2 dsz2) true
        rw [List.mem_append] at hm
        rcases hm with hm | hm
        · simp at hm
        · exact absurd hm hc3
      · rw [run_cs_eq_err e2 a2 rev2 dsz2 _ hp2 hk2] at hm
        simp at hm
  have hkO : knobSection env (initSt env)
      = Except.ok ⟨[Event.detect], some env.knobContent, false, 0⟩ := by
    simp [knobSection, initSt, initKnob, h]
  have hkA : knobSection { env with access := AccessRes.enoent }
        (initSt { env with access := AccessRes.enoent })
      = Except.ok ⟨[Event.detect, Event.warnOldKernel], none, false, 0⟩ := by
    simp [knobSection, initSt, initKnob]
  rcases hp : parseArgs argv with _ | ⟨rev, dsz⟩
  · rw [run_cs_usage env argv hp, run_cs_usage _ argv hp]
    refine ⟨by simp, by simp [knobWrites], by simp [initKnob, h], rfl, by simp, rfl, rfl, hwarn⟩
  · rw [run_cs_eq env argv rev dsz _ hp hkO,
      run_cs_eq { env with access := AccessRes.enoent } argv rev dsz _ hp hkA,
      afterKnob_eq, afterKnob_eq]
    dsimp only
    have hs : pipeSuffix { env with access := AccessRes.enoent } (devicesOf argv rev dsz) false
        = pipeSuffix env (devicesOf argv rev dsz) false := rfl
    have hcq : pipeCause { env with access := AccessRes.enoent } false
        = pipeCause env false := rfl
    have hst : pipeStatus { env with access := AccessRes.enoent } (devicesOf argv rev dsz)
          false 0
        = pipeStatus env (devicesOf argv rev dsz) false 0 := rfl
    rw [hs, hcq, hst]
    obtain ⟨_, _, hc3, _⟩ := pipeSuffix_spec env (devicesOf argv rev dsz) false
    refine ⟨?_, ?_, by simp [pipeKnob], rfl, ?_, rfl, rfl, hwarn⟩
    · rw [List.mem_append]
      rintro (hm | hm)
      · simp at hm
      · exact absurd hm hc3
    · rw [knobWrites_append, knobWrites_pipeSuffix]
      simp [knobWrites]
    · have : ([Event.detect, Event.warnOldKernel]
            ++ pipeSuffix env (devicesOf argv rev dsz) false).erase Event.warnOldKernel
          = [Event.detect] ++ pipeSuffix env (devicesOf argv rev dsz) false := by
        simp [List.erase_cons]
      rw [this]

/-- C10 (witness): the theorem applied to a concrete permission-denied
environment. -/
theorem C10_witness :
    Event.warnOldKernel ∉ (run_cs { okEnv (fun _ => true) with access := AccessRes.eother }
        ["cryptsetup-suspend", "ctest1"]).trace ∧
    knobWrites (run_cs { okEnv (fun _ => true) with access := AccessRes.eother }
        ["cryptsetup-suspend", "ctest1"]).trace = 0 ∧
    (run_cs { okEnv (fun _ => true) with access := AccessRes.eother }
        ["cryptsetup-suspend", "ctest1"]).knob = some ['1', '\n'] :=
  ⟨(C10_non_enoent_silent { okEnv (fun _ => true) with access := AccessRes.eother }
      ["cryptsetup-suspend", "ctest1"] rfl).1,
   (C10_non_enoent_silent { okEnv (fun _ => true) with access := AccessRes.eother }
      ["cryptsetup-suspend", "ctest1"] rfl).2.1,
   (C10_non_enoent_silent { okEnv (fun _ => true) with access := AccessRes.eother }
      ["cryptsetup-suspend", "ctest1"] rfl).2.2.1⟩

end CryptSuspend
